import Mathlib

/-!
Verification of the layer/filter/statistics engine of the FRA WebGIS
viewer (`fradss/static/vanachitra.js`, class `VanachitraFRAViewer`).

The JavaScript operates on GeoJSON feature `properties` objects whose
string and numeric fields may be absent (`undefined`).  We embed such an
object as a record of `Option` fields and embed JavaScript's short-circuit
`||` on possibly-absent values (falsy: `undefined`, the empty string, the
number 0) explicitly.  Numbers are embedded as `ℚ`.
-/

namespace Vanachitra

/-- A feature's `properties` object, restricted to the fields the engine
reads.  `none` stands for an absent (`undefined`) field. -/
structure Props where
  fra_type : Option String
  feature_type : Option String
  claim_type : Option String
  status : Option String
  state : Option String
  district : Option String
  village : Option String
  area_claimed : Option ℚ
  area_hectares : Option ℚ
deriving DecidableEq, Repr

/-- JavaScript truthiness of a possibly-absent string: `undefined` and the
empty string are falsy. -/
def truthyStr : Option String → Bool
  | none => false
  | some s => s ≠ ""

/-- JavaScript `a || b` on possibly-absent strings. -/
def jsOrStr (a b : Option String) : Option String :=
  if truthyStr a then a else b

/-- `feature.properties.fra_type || feature.properties.feature_type`,
the descriptive type the viewer computes at every call site. -/
def fraTypeOf (p : Props) : Option String :=
  jsOrStr p.fra_type p.feature_type

/-- The keys of the `featureGroups` object in `displayFRALayers`. -/
def groupKeys : List String :=
  ["Community Forest Resource Rights", "Individual Forest Rights",
   "Community Rights", "Agriculture", "Water Body"]

/-- The legacy-format branch of the grouping in `displayFRALayers`:
consulted only when `featureGroups[fraType]` is not a group. -/
def legacyGroup (p : Props) : Option String :=
  if p.claim_type = some "CFR" then some "Community Forest Resource Rights"
  else if p.claim_type = some "IFR" then some "Individual Forest Rights"
  else if p.claim_type = some "CR" then some "Community Rights"
  else none

/-- The group `displayFRALayers` pushes a feature into: the descriptive
`fra_type || feature_type` value when it is one of the five group keys
(`if (featureGroups[fraType])`, the five arrays being truthy), otherwise
the legacy `claim_type` branch; `none` when neither applies, in which
case the feature is pushed into no group at all. -/
def groupOf (p : Props) : Option String :=
  let ft := fraTypeOf p
  match ft with
  | some s => if s ∈ groupKeys then some s else legacyGroup p
  | none => legacyGroup p

/-- The fixed `layerOrder` array of `displayFRALayers`. -/
def layerOrder : List String :=
  ["Community Forest Resource Rights", "Agriculture", "Water Body",
   "Community Rights", "Individual Forest Rights"]

/-- The array `featureGroups[k]` after the grouping pass of
`displayFRALayers`, in input order. -/
def featureGroup (features : List Props) (k : String) : List Props :=
  features.filter (fun p => groupOf p = some k)

/-- The sequence of feature types for which `displayFRALayers` creates and
adds a layer: `layerOrder` restricted to the groups that are nonempty
(`if (featureGroups[fraType].length > 0)`). -/
def drawOrder (features : List Props) : List String :=
  layerOrder.filter (fun k => (featureGroup features k).length ≠ 0)

/-! ### Style resolution (`getFeatureStyle`) -/

/-- The per-category base colors (the `this.colors` table): stroke color,
fill color, fill opacity. -/
structure BaseStyle where
  color : String
  fillColor : String
  fillOpacity : ℚ
deriving DecidableEq, Repr

/-- Lookup in the `this.colors` object; `none` when the key is not one of
the five color keys (including when the key itself is absent). -/
def colors (k : String) : Option BaseStyle :=
  if k = "CFR" then some ⟨"#8B4513", "#A0522D", 2/5⟩
  else if k = "IFR" then some ⟨"#FF6B35", "#F7931E", 3/5⟩
  else if k = "CR" then some ⟨"#9B59B6", "#8E44AD", 3/5⟩
  else if k = "Agriculture" then some ⟨"#2ECC71", "#27AE60", 7/10⟩
  else if k = "Water Body" then some ⟨"#3498DB", "#2980B9", 4/5⟩
  else none

/-- The full style object `getFeatureStyle` returns (and the partial
objects `setStyle` is called with merge into). -/
structure StyleRule where
  color : String
  fillColor : String
  fillOpacity : ℚ
  weight : Nat
  opacity : ℚ
  dashArray : Option String
deriving DecidableEq, Repr

/-- The `styleKey` computed by the if/else chain of `getFeatureStyle`.
Note the chain tests `claim_type === 'CFR' || fraType === '...'` per
branch, so its precedence is the branch order (CFR, IFR, CR), not a
uniform field precedence; when no branch fires, `styleKey` stays the raw
descriptive value (possibly absent). -/
def styleKeyOf (p : Props) : Option String :=
  let ft := fraTypeOf p
  if p.claim_type = some "CFR" ∨ ft = some "Community Forest Resource Rights" then some "CFR"
  else if p.claim_type = some "IFR" ∨ ft = some "Individual Forest Rights" then some "IFR"
  else if p.claim_type = some "CR" ∨ ft = some "Community Rights" then some "CR"
  else if ft = some "Agriculture" then some "Agriculture"
  else if ft = some "Water Body" then some "Water Body"
  else ft

/-- The neutral fallback base style of `getFeatureStyle`
(`this.colors[styleKey] || { color: '#333333', ... }`). -/
def neutralBase : BaseStyle := ⟨"#333333", "#666666", 1/2⟩

/-- `getFeatureStyle(feature)`: category-derived base colors (or the
neutral fallback), a weight of 3 for CFR and 2 otherwise, fixed opacity
0.8, and a dash pattern exactly when `status === 'Pending'`. -/
def getFeatureStyle (p : Props) : StyleRule :=
  let styleKey := styleKeyOf p
  let base := (styleKey.bind colors).getD neutralBase
  { color := base.color
    fillColor := base.fillColor
    fillOpacity := base.fillOpacity
    weight := if styleKey = some "CFR" then 3 else 2
    opacity := 4/5
    dashArray := if p.status = some "Pending" then some "5, 5" else none }

/-! ### Filtering (`applyFilters`) -/

/-- The `filters` object read from the five dropdowns in `applyFilters`.
DOM `value`s are always strings; the empty string is the
"All ..." option.  There is no numeric minimum-area input anywhere in the
page or the code. -/
structure Filters where
  state : String
  district : String
  village : String
  fraType : String
  status : String
deriving DecidableEq, Repr

/-- The FRA-type branch of the filter predicate: the selected descriptive
filter value matches a feature through either its legacy `claim_type`
code or its descriptive `fra_type || feature_type` value, with a final
literal string comparison `filters.fraType === fraType`. -/
def fraTypeMatches (sel : String) (p : Props) : Bool :=
  let ft := fraTypeOf p
  if sel = "Community Forest Resource Rights" ∧
      (p.claim_type = some "CFR" ∨ ft = some "Community Forest Resource Rights") then true
  else if sel = "Individual Forest Rights" ∧
      (p.claim_type = some "IFR" ∨ ft = some "Individual Forest Rights") then true
  else if sel = "Community Rights" ∧
      (p.claim_type = some "CR" ∨ ft = some "Community Rights") then true
  else if some sel = ft then true
  else false

/-- The per-feature predicate of `applyFilters`: each of the five filter
fields is applied only when nonempty (truthy), and an absent property
never equals a nonempty filter string (`undefined !== "x"`). -/
def matchesFilters (fil : Filters) (p : Props) : Bool :=
  if fil.state ≠ "" ∧ p.state ≠ some fil.state then false
  else if fil.district ≠ "" ∧ p.district ≠ some fil.district then false
  else if fil.village ≠ "" ∧ p.village ≠ some fil.village then false
  else if fil.fraType ≠ "" ∧ ¬ fraTypeMatches fil.fraType p then false
  else if fil.status ≠ "" ∧ p.status ≠ some fil.status then false
  else true

/-- `applyFilters`: `this.fraData.features.filter(...)` producing the
`filteredData` feature array. -/
def applyFilters (features : List Props) (fil : Filters) : List Props :=
  features.filter (matchesFilters fil)

/-! ### Statistics (`updateStatistics`) -/

/-- JavaScript truthiness of a possibly-absent number: `undefined` and 0
are falsy. -/
def truthyNum : Option ℚ → Bool
  | none => false
  | some x => x ≠ 0

/-- JavaScript `a || b` where `a` is a possibly-absent number and `b` a
number: `b` when `a` is falsy. -/
def jsOrNum (a : Option ℚ) (b : ℚ) : ℚ :=
  match a with
  | some x => if x ≠ 0 then x else b
  | none => b

/-- The per-feature term of `totalArea`:
`props.area_claimed || props.area_hectares || 0` (JavaScript `||` is
value-associative, so the left-nested chain equals this right-nested
one). -/
def areaContribution (p : Props) : ℚ :=
  jsOrNum p.area_claimed (jsOrNum p.area_hectares 0)

/-- The five keys of the `typeCounts` object in `updateStatistics`. -/
inductive Bucket
  | CFR | IFR | CR | Agriculture | WaterBody
deriving DecidableEq, Repr

/-- The category bucket the `updateStatistics` if/else chain increments
for a feature, `none` when no branch fires (such a feature increments no
`typeCounts` entry at all). -/
def statBucket (p : Props) : Option Bucket :=
  let ft := fraTypeOf p
  if p.claim_type = some "CFR" ∨ ft = some "Community Forest Resource Rights" then some .CFR
  else if p.claim_type = some "IFR" ∨ ft = some "Individual Forest Rights" then some .IFR
  else if p.claim_type = some "CR" ∨ ft = some "Community Rights" then some .CR
  else if ft = some "Agriculture" then some .Agriculture
  else if ft = some "Water Body" then some .WaterBody
  else none

/-- The aggregate values `updateStatistics` computes and writes to the
UI. -/
structure Stats where
  cfr : Nat
  ifr : Nat
  cr : Nat
  agriculture : Nat
  waterBody : Nat
  totalFeatures : Nat
  totalArea : ℚ
  approvedCount : Nat
  pendingCount : Nat
deriving DecidableEq, Repr

/-- The accumulator state before the `features.forEach` loop. -/
def initStats : Stats :=
  { cfr := 0, ifr := 0, cr := 0, agriculture := 0, waterBody := 0
    totalFeatures := 0, totalArea := 0, approvedCount := 0, pendingCount := 0 }

/-- One iteration of the `features.forEach` loop of `updateStatistics`:
bump the matching category bucket (if any), add the area contribution,
and bump the matching status counter (if any). -/
def statsStep (s : Stats) (p : Props) : Stats :=
  let s1 :=
    match statBucket p with
    | some .CFR => { s with cfr := s.cfr + 1 }
    | some .IFR => { s with ifr := s.ifr + 1 }
    | some .CR => { s with cr := s.cr + 1 }
    | some .Agriculture => { s with agriculture := s.agriculture + 1 }
    | some .WaterBody => { s with waterBody := s.waterBody + 1 }
    | none => s
  let s2 := { s1 with totalArea := s1.totalArea + areaContribution p }
  if p.status = some "Approved" then { s2 with approvedCount := s2.approvedCount + 1 }
  else if p.status = some "Pending" then { s2 with pendingCount := s2.pendingCount + 1 }
  else s2

/-- `updateStatistics` over the current feature array; `totalFeatures` is
`features.length`, written to the UI directly. -/
def updateStatistics (features : List Props) : Stats :=
  let s := features.foldl statsStep initStats
  { s with totalFeatures := features.length }

/-- The sum of the five `typeCounts` buckets of a `Stats` value. -/
def bucketSum (s : Stats) : Nat :=
  s.cfr + s.ifr + s.cr + s.agriculture + s.waterBody

/-! ### Cascading filter options (`updateDistrictFilter`,
`updateVillageFilter`) -/

/-- The comparison `Array.prototype.sort` effects on the possibly-absent
option values: strings by code-unit order, absent (`undefined`) values
always last. -/
def optLE (a b : Option String) : Prop :=
  match a, b with
  | none, none => True
  | none, some _ => False
  | some _, none => True
  | some x, some y => x ≤ y

instance : DecidableRel optLE := fun a b => by
  cases a <;> cases b <;> simp only [optLE] <;> infer_instance

/-- `[...new Set(values)].sort()`: the sorted list of the distinct
values. -/
def setSort (l : List (Option String)) : List (Option String) :=
  List.insertionSort optLE l.dedup

/-- `updateDistrictFilter`: after resetting the dropdown to the lone
"All Districts" placeholder, an empty state selection returns early with
no district options; otherwise the options are the sorted distinct
districts of the features of `this.fraData` (the full dataset) whose
state equals the selection. -/
def updateDistrictFilter (features : List Props) (selectedState : String) :
    List (Option String) :=
  if selectedState = "" then []
  else setSort ((features.filter (fun p => p.state = some selectedState)).map Props.district)

/-- `updateVillageFilter`: empty when either the state or the district
selection is empty; otherwise the sorted distinct villages of the full
dataset's features matching both. -/
def updateVillageFilter (features : List Props) (selectedState selectedDistrict : String) :
    List (Option String) :=
  if selectedState = "" ∨ selectedDistrict = "" then []
  else setSort ((features.filter
    (fun p => p.state = some selectedState ∧ p.district = some selectedDistrict)).map Props.village)

/-! ### Highlight interaction (`highlightFeature`, `resetView`) -/

/-- The viewer's interaction state: the features (indexed by an abstract
layer id), the `this.currentFeature` reference, and the style each
rendered layer currently carries. -/
structure Viewer where
  featureProps : Nat → Props
  currentFeature : Option Nat
  styleOf : Nat → StyleRule

/-- The partial style object `highlightFeature` passes to `setStyle`;
Leaflet merges it into the layer's current style, leaving `fillColor`
and `dashArray` untouched. -/
def applyHighlight (s : StyleRule) : StyleRule :=
  { s with weight := 5, color := "#ffff00", opacity := 1, fillOpacity := 9/10 }

/-- `highlightFeature(targetLayer)`: reset the previously highlighted
layer (if any) to its computed normal style, then record the target as
current and merge the highlight style into its style. -/
def highlightFeature (v : Viewer) (target : Nat) : Viewer :=
  let v1 :=
    match v.currentFeature with
    | some prev =>
        { v with styleOf := fun i =>
            if i = prev then getFeatureStyle (v.featureProps prev) else v.styleOf i }
    | none => v
  { v1 with
    currentFeature := some target
    styleOf := fun i => if i = target then applyHighlight (v1.styleOf i) else v1.styleOf i }

/-- The highlight-clearing part of `resetView`: restore the current
feature's normal style (if any) and null out `this.currentFeature`. -/
def resetView (v : Viewer) : Viewer :=
  match v.currentFeature with
  | some prev =>
      { v with
        styleOf := fun i =>
          if i = prev then getFeatureStyle (v.featureProps prev) else v.styleOf i
        currentFeature := none }
  | none => v

/-- A layer counts as visually highlighted exactly when it carries the
highlight stroke color, which no normal (category/status-derived) style
ever uses. -/
def Highlighted (v : Viewer) (i : Nat) : Prop :=
  (v.styleOf i).color = "#ffff00"

/-- The single-highlight invariant: a layer carries the highlight color
iff it is the one `this.currentFeature` points to. -/
def HighlightInv (v : Viewer) : Prop :=
  ∀ i, Highlighted v i ↔ v.currentFeature = some i

/-! ### Concrete sample features -/

/-- A properties object with every field absent. -/
def emptyProps : Props := ⟨none, none, none, none, none, none, none, none, none⟩

/-- A legacy-schema CFR feature: `claim_type: "CFR"`, no descriptive
field. -/
def legacyCFRFeature : Props :=
  { emptyProps with
    claim_type := some "CFR"
    status := some "Approved"
    state := some "Odisha"
    district := some "Mayurbhanj"
    village := some "Salboni"
    area_hectares := some 10 }

/-- A descriptive-schema CFR feature with the same remaining fields. -/
def descCFRFeature : Props :=
  { emptyProps with
    fra_type := some "Community Forest Resource Rights"
    status := some "Approved"
    state := some "Odisha"
    district := some "Mayurbhanj"
    village := some "Salboni"
    area_hectares := some 10 }

/-- A feature whose descriptive field carries an unrecognized value and
which has no legacy code. -/
def unknownFeature : Props := { emptyProps with fra_type := some "Mystery" }

/-- A feature whose legacy code (`IFR`) and descriptive field
(`Community Forest Resource Rights`) conflict. -/
def conflictFeature : Props :=
  { emptyProps with
    claim_type := some "IFR"
    fra_type := some "Community Forest Resource Rights" }

/-- The mirror-image conflict: legacy code `CFR`, descriptive field
`Individual Forest Rights`. -/
def conflictFeature2 : Props :=
  { emptyProps with
    claim_type := some "CFR"
    fra_type := some "Individual Forest Rights" }

/-! ### C6: draw order -/

/-- **C6.** The draw order `displayFRALayers` produces is a function of
the present-category set only: permuting the input feature array leaves
it unchanged; it is always the fixed `layerOrder` total order restricted
to the categories present, so the community-forest-resource group (when
present) is drawn first and the individual-rights group (when present)
last. -/
theorem drawOrder_function_of_present_set (l1 l2 : List Props)
    (h : List.Perm l1 l2) :
    drawOrder l1 = drawOrder l2 ∧
    List.Sublist (drawOrder l1) layerOrder ∧
    ("Community Forest Resource Rights" ∈ drawOrder l1 →
      (drawOrder l1).head? = some "Community Forest Resource Rights") ∧
    ("Individual Forest Rights" ∈ drawOrder l1 →
      (drawOrder l1).getLast? = some "Individual Forest Rights") := by
  have hlen : ∀ k, (featureGroup l1 k).length = (featureGroup l2 k).length :=
    fun k => (h.filter _).length_eq
  refine ⟨?_, List.filter_sublist _, ?_, ?_⟩
  · unfold drawOrder
    exact List.filter_congr (fun k _ => by rw [hlen k])
  · intro hmem
    have hp := List.of_mem_filter hmem
    show (List.filter _ layerOrder).head? = _
    unfold layerOrder
    rw [List.filter_cons]
    simp only [hp, if_true]
    rfl
  · intro hmem
    have hp := List.of_mem_filter hmem
    have hsplit : drawOrder l1 =
        (List.filter (fun k => (featureGroup l1 k).length ≠ 0)
          ["Community Forest Resource Rights", "Agriculture", "Water Body",
           "Community Rights"]) ++ ["Individual Forest Rights"] := by
      show (List.filter _ layerOrder) = _
      unfold layerOrder
      rw [show ["Community Forest Resource Rights", "Agriculture", "Water Body",
        "Community Rights", "Individual Forest Rights"] =
        ["Community Forest Resource Rights", "Agriculture", "Water Body",
         "Community Rights"] ++ ["Individual Forest Rights"] from rfl,
        List.filter_append]
      congr 1
      rw [List.filter_cons]
      simp only [hp, if_true]
      rfl
    rw [hsplit, List.getLast?_concat]

/-- Witness for C6 at a concrete pair of permuted feature arrays. -/
theorem drawOrder_function_of_present_set_witness :
    drawOrder [legacyCFRFeature, unknownFeature] =
      drawOrder [unknownFeature, legacyCFRFeature] ∧
    List.Sublist (drawOrder [legacyCFRFeature, unknownFeature]) layerOrder ∧
    ("Community Forest Resource Rights" ∈ drawOrder [legacyCFRFeature, unknownFeature] →
      (drawOrder [legacyCFRFeature, unknownFeature]).head? =
        some "Community Forest Resource Rights") ∧
    ("Individual Forest Rights" ∈ drawOrder [legacyCFRFeature, unknownFeature] →
      (drawOrder [legacyCFRFeature, unknownFeature]).getLast? =
        some "Individual Forest Rights") :=
  drawOrder_function_of_present_set [legacyCFRFeature, unknownFeature]
    [unknownFeature, legacyCFRFeature]
    (List.Perm.swap unknownFeature legacyCFRFeature [])

/-! ### C8: style resolution -/

/-- **C8.** `getFeatureStyle` is total; when the category key has no
entry in the color table the neutral fallback base is used; the status
field contributes only the dash pattern (`Pending` adds the `5, 5`
dash), while stroke color, fill color, fill opacity, weight and opacity
are independent of the status. -/
theorem getFeatureStyle_status_only_dashes (p : Props) (s1 s2 : Option String) :
    ((getFeatureStyle { p with status := s1 }).color =
        (getFeatureStyle { p with status := s2 }).color ∧
      (getFeatureStyle { p with status := s1 }).fillColor =
        (getFeatureStyle { p with status := s2 }).fillColor ∧
      (getFeatureStyle { p with status := s1 }).fillOpacity =
        (getFeatureStyle { p with status := s2 }).fillOpacity ∧
      (getFeatureStyle { p with status := s1 }).weight =
        (getFeatureStyle { p with status := s2 }).weight ∧
      (getFeatureStyle { p with status := s1 }).opacity =
        (getFeatureStyle { p with status := s2 }).opacity) ∧
    ((styleKeyOf p).bind colors = none →
      (getFeatureStyle p).color = neutralBase.color ∧
      (getFeatureStyle p).fillColor = neutralBase.fillColor ∧
      (getFeatureStyle p).fillOpacity = neutralBase.fillOpacity) ∧
    (getFeatureStyle p).dashArray =
      (if p.status = some "Pending" then some "5, 5" else none) := by
  refine ⟨⟨rfl, rfl, rfl, rfl, rfl⟩, ?_, rfl⟩
  intro hnone
  simp [getFeatureStyle, hnone, Option.getD_none]

/-! ### Statistics helper lemmas -/

lemma statsStep_totalArea (s : Stats) (p : Props) :
    (statsStep s p).totalArea = s.totalArea + areaContribution p := by
  simp only [statsStep]
  cases hb : statBucket p with
  | none => split_ifs <;> rfl
  | some b => cases b <;> split_ifs <;> rfl

lemma statsStep_totalFeatures (s : Stats) (p : Props) :
    (statsStep s p).totalFeatures = s.totalFeatures := by
  simp only [statsStep]
  cases hb : statBucket p with
  | none => split_ifs <;> rfl
  | some b => cases b <;> split_ifs <;> rfl

lemma statsStep_bucketSum_none (s : Stats) (p : Props) (h : statBucket p = none) :
    bucketSum (statsStep s p) = bucketSum s := by
  simp only [statsStep, h]
  split_ifs <;> rfl

lemma statsStep_bucketSum_some (s : Stats) (p : Props) (b : Bucket)
    (h : statBucket p = some b) :
    bucketSum (statsStep s p) = bucketSum s + 1 := by
  simp only [statsStep, h]
  cases b <;> split_ifs <;> simp [bucketSum] <;> omega

lemma foldl_stats (l : List Props) (s : Stats) :
    (l.foldl statsStep s).totalArea = s.totalArea + (l.map areaContribution).sum ∧
    (l.foldl statsStep s).totalFeatures = s.totalFeatures ∧
    bucketSum (l.foldl statsStep s) =
      bucketSum s + (l.filter (fun p => (statBucket p).isSome)).length := by
  induction l generalizing s with
  | nil => simp
  | cons p l ih =>
    simp only [List.foldl_cons, List.map_cons, List.sum_cons, List.filter_cons]
    obtain ⟨h1, h2, h3⟩ := ih (statsStep s p)
    refine ⟨?_, ?_, ?_⟩
    · rw [h1, statsStep_totalArea]; ring
    · rw [h2, statsStep_totalFeatures]
    · rw [h3]
      cases hb : statBucket p with
      | none => rw [statsStep_bucketSum_none s p hb]; simp [hb]
      | some b =>
        rw [statsStep_bucketSum_some s p b hb]
        simp [hb]
        omega

/-! ### C1: statistics invariants -/

/-- **C1 (amended).** `totalFeatures` is the length of the input and
`totalAreaHectares` is the arithmetic sum of the per-feature area
contributions, but the five category buckets count only the features the
schema chain recognizes: their sum equals the number of recognized
features, which can be strictly below `totalFeatures` — a feature of
unknown category contributes to no bucket at all. -/
theorem updateStatistics_invariants (X : List Props) :
    (updateStatistics X).totalFeatures = X.length ∧
    bucketSum (updateStatistics X) =
      (X.filter (fun p => (statBucket p).isSome)).length ∧
    bucketSum (updateStatistics X) ≤ (updateStatistics X).totalFeatures ∧
    (updateStatistics X).totalArea = (X.map areaContribution).sum := by
  obtain ⟨h1, _, h3⟩ := foldl_stats X initStats
  have hb : bucketSum (updateStatistics X) =
      bucketSum (X.foldl statsStep initStats) := rfl
  have ha : (updateStatistics X).totalArea =
      (X.foldl statsStep initStats).totalArea := rfl
  have hf : (updateStatistics X).totalFeatures = X.length := rfl
  refine ⟨hf, ?_, ?_, ?_⟩
  · rw [hb, h3]; simp [initStats, bucketSum]
  · rw [hb, h3, hf]
    simp [initStats, bucketSum]
    exact List.length_filter_le _ _
  · rw [ha, h1]; simp [initStats]

/-- **C1 counterexample.** On the singleton set holding one feature of
unrecognized category, the bucket counts sum to 0 while `totalFeatures`
is 1, so the claimed equality `sum(countByCategory) = totalFeatures`
fails. -/
theorem updateStatistics_unknown_counterexample :
    ¬ (bucketSum (updateStatistics [unknownFeature]) =
        (updateStatistics [unknownFeature]).totalFeatures) := by decide

/-! ### C2: filter application -/

lemma matchesFilters_iff (fil : Filters) (p : Props) :
    matchesFilters fil p = true ↔
      ((fil.state ≠ "" → p.state = some fil.state) ∧
       (fil.district ≠ "" → p.district = some fil.district) ∧
       (fil.village ≠ "" → p.village = some fil.village) ∧
       (fil.fraType ≠ "" → fraTypeMatches fil.fraType p = true) ∧
       (fil.status ≠ "" → p.status = some fil.status)) := by
  unfold matchesFilters
  split_ifs with h1 h2 h3 h4 h5 <;> simp <;> tauto

/-- **C2 (amended).** `applyFilters` returns a sublist of its input, and
a feature is retained iff every nonempty filter field matches it: string
equality for state, district, village and status, and the schema-aware
FRA-type predicate (legacy code or descriptive field) for the category.
The implementation has no numeric minimum-area filter field. -/
theorem applyFilters_subset_and_matching (S : List Props) (fil : Filters) :
    List.Sublist (applyFilters S fil) S ∧
    ∀ p, p ∈ applyFilters S fil ↔
      (p ∈ S ∧
       (fil.state ≠ "" → p.state = some fil.state) ∧
       (fil.district ≠ "" → p.district = some fil.district) ∧
       (fil.village ≠ "" → p.village = some fil.village) ∧
       (fil.fraType ≠ "" → fraTypeMatches fil.fraType p = true) ∧
       (fil.status ≠ "" → p.status = some fil.status)) := by
  refine ⟨List.filter_sublist _, fun p => ?_⟩
  rw [applyFilters, List.mem_filter, matchesFilters_iff]

/-- The FilterState as the claim describes it, including the `minArea`
numeric threshold; the implementation's `Filters` record carries no such
field. -/
structure SpecFilterState where
  state : String
  district : String
  village : String
  fraType : String
  status : String
  minArea : Option ℚ
deriving DecidableEq, Repr

/-- The five dropdown values of a claimed filter state — all the
implementation ever reads. -/
def SpecFilterState.toFilters (f : SpecFilterState) : Filters :=
  ⟨f.state, f.district, f.village, f.fraType, f.status⟩

/-- The claim's retention predicate, following the claim's words: every
nonempty filter field must match (the category clause is read
charitably, as the implementation's own schema-aware predicate), and the
feature's area must be at least `minArea` when that threshold is set. -/
def specClaimMatches (f : SpecFilterState) (p : Props) : Bool :=
  (decide (f.state = "") || decide (p.state = some f.state)) &&
  (decide (f.district = "") || decide (p.district = some f.district)) &&
  (decide (f.village = "") || decide (p.village = some f.village)) &&
  (decide (f.fraType = "") || fraTypeMatches f.fraType p) &&
  (decide (f.status = "") || decide (p.status = some f.status)) &&
  (match f.minArea with
   | none => true
   | some m => decide (m ≤ areaContribution p))

/-- A feature of area 1 hectare, all other fields absent. -/
def smallAreaFeature : Props := { emptyProps with area_hectares := some 1 }

/-- A filter state whose only active field is `minArea = 5`. -/
def minAreaFilter : SpecFilterState := ⟨"", "", "", "", "", some 5⟩

/-- **C2 counterexample.** Under a filter state whose only active field
is the numeric threshold `minArea = 5`, the implementation retains a
feature of area 1 even though the claim's predicate (area ≥ minArea)
rejects it: the code implements no minimum-area constraint. -/
theorem applyFilters_minArea_counterexample :
    applyFilters [smallAreaFeature] minAreaFilter.toFilters = [smallAreaFeature] ∧
    specClaimMatches minAreaFilter smallAreaFeature = false := by decide

/-! ### C9: legacy/descriptive schema equivalence -/

/-- **C9.** A feature with `claim_type: "CFR"` and no descriptive field
is treated exactly like one with
`fra_type: "Community Forest Resource Rights"` and no legacy code: same
layer group, same style, same statistics bucket (and equal statistics on
the singleton sets), and the same behaviour under every filter state. -/
theorem legacy_descriptive_schema_equivalence :
    groupOf legacyCFRFeature = groupOf descCFRFeature ∧
    getFeatureStyle legacyCFRFeature = getFeatureStyle descCFRFeature ∧
    statBucket legacyCFRFeature = statBucket descCFRFeature ∧
    updateStatistics [legacyCFRFeature] = updateStatistics [descCFRFeature] ∧
    ∀ fil : Filters,
      matchesFilters fil legacyCFRFeature = matchesFilters fil descCFRFeature := by
  refine ⟨by decide, by rfl, by decide, by rfl, ?_⟩
  intro fil
  have hft : fraTypeMatches fil.fraType legacyCFRFeature =
      fraTypeMatches fil.fraType descCFRFeature := by
    by_cases h1 : fil.fraType = "Community Forest Resource Rights" <;>
      simp [fraTypeMatches, fraTypeOf, jsOrStr, truthyStr, legacyCFRFeature,
        descCFRFeature, emptyProps, h1]
  simp only [matchesFilters]
  rw [hft]
  simp [legacyCFRFeature, descCFRFeature, emptyProps]

/-! ### C10: area fallback chain -/

/-- **C10.** The statistics area term uses the falsy-value fallback
chain of `area_claimed || area_hectares || 0`: whenever `area_claimed`
is absent or 0 and `area_hectares` carries `h`, the feature contributes
`h` (the singleton total area equals `h` as well); in particular
`area_claimed = 0` does not force a 0 contribution. -/
theorem areaContribution_falsy_fallback (p : Props) (h : ℚ)
    (hclaimed : p.area_claimed = none ∨ p.area_claimed = some 0)
    (hhect : p.area_hectares = some h) :
    areaContribution p = h ∧ (updateStatistics [p]).totalArea = h := by
  have harea : areaContribution p = h := by
    rcases hclaimed with hc | hc <;>
      by_cases h0 : h = 0 <;>
        simp [areaContribution, jsOrNum, hc, hhect, h0]
  refine ⟨harea, ?_⟩
  have hstep := statsStep_totalArea initStats p
  have h2 : (updateStatistics [p]).totalArea = (statsStep initStats p).totalArea := rfl
  rw [h2, hstep, harea]
  simp [initStats]

/-- A feature with `area_claimed = 0` and `area_hectares = 7`. -/
def zeroClaimedFeature : Props :=
  { emptyProps with
    area_claimed := some 0
    area_hectares := some 7 }

/-- Witness for C10: the zero-`area_claimed` feature contributes its
`area_hectares` of 7, not 0. -/
theorem areaContribution_falsy_fallback_witness :
    areaContribution zeroClaimedFeature = 7 ∧
    (updateStatistics [zeroClaimedFeature]).totalArea = 7 :=
  areaContribution_falsy_fallback zeroClaimedFeature 7 (Or.inr rfl) rfl

/-! ### C3: category resolution precedence -/

/-- **C3 (amended).** In the grouping pass of `displayFRALayers` the
descriptive `fra_type || feature_type` value takes precedence whenever it
is a recognized group key: the legacy `claim_type` code is consulted only
when the descriptive value is missing or unrecognized. -/
theorem descriptive_field_precedence (p : Props) (k : String)
    (hk : k ∈ groupKeys) (hft : fraTypeOf p = some k) :
    groupOf p = some k := by
  simp only [groupOf, hft]
  rw [if_pos hk]

/-- Witness for C3: on the conflicting feature the recognized descriptive
value decides the group. -/
theorem descriptive_field_precedence_witness :
    groupOf conflictFeature = some "Community Forest Resource Rights" :=
  descriptive_field_precedence conflictFeature "Community Forest Resource Rights"
    (by decide) (by decide)

/-- **C3 counterexample.** A feature with `claim_type: "IFR"` and
`fra_type: "Community Forest Resource Rights"` is grouped, styled and
counted as CFR — the descriptive field wins, contradicting the claimed
`claim_type` precedence; and on the mirror conflict the grouping (IFR)
and the style key (CFR) even disagree with each other. -/
theorem conflict_resolution_counterexample :
    groupOf conflictFeature = some "Community Forest Resource Rights" ∧
    groupOf conflictFeature ≠ some "Individual Forest Rights" ∧
    styleKeyOf conflictFeature = some "CFR" ∧
    statBucket conflictFeature = some Bucket.CFR ∧
    groupOf conflictFeature2 = some "Individual Forest Rights" ∧
    styleKeyOf conflictFeature2 = some "CFR" := by decide

/-! ### C4: unrecognized categories are dropped from rendering -/

/-- **C4 (amended).** A feature whose category resolves to no group
(unrecognized descriptive value and no recognized legacy code) is never
a member of any layer group and yields an empty draw order on its own:
`displayFRALayers` silently drops it from rendering (only
`getFeatureStyle`, if it were consulted, would give the neutral
fallback). -/
theorem unknown_category_dropped (p : Props) (fs : List Props) (k : String)
    (h : groupOf p = none) :
    p ∉ featureGroup fs k ∧ drawOrder [p] = [] := by
  constructor
  · intro hmem
    have hx := List.of_mem_filter hmem
    simp [h] at hx
  · have hempty : ∀ k2, featureGroup [p] k2 = [] := by
      intro k2
      simp [featureGroup, List.filter, h]
    unfold drawOrder layerOrder
    simp [hempty]

/-- Witness for C4 at the concrete unrecognized feature. -/
theorem unknown_category_dropped_witness :
    unknownFeature ∉
      featureGroup [legacyCFRFeature, unknownFeature] "Community Forest Resource Rights" ∧
    drawOrder [unknownFeature] = [] :=
  unknown_category_dropped unknownFeature [legacyCFRFeature, unknownFeature]
    "Community Forest Resource Rights" (by decide)

/-- **C4 counterexample.** The feature with `fra_type: "Mystery"` does
get the neutral fallback style, but it appears in none of the five layer
groups and produces an empty draw order — it is silently dropped from
rendering, contradicting the claim that it is never dropped. -/
theorem unknown_feature_dropped_counterexample :
    getFeatureStyle unknownFeature =
      { color := "#333333", fillColor := "#666666", fillOpacity := 1/2,
        weight := 2, opacity := 4/5, dashArray := none } ∧
    drawOrder [unknownFeature] = [] ∧
    (layerOrder.all fun k => (featureGroup [unknownFeature] k).isEmpty) = true := by
  refine ⟨by rfl, by decide, by decide⟩

/-! ### C5: cascading district options -/

instance : IsTotal (Option String) optLE := by
  constructor
  intro a b
  cases a <;> cases b
  · exact Or.inl trivial
  · exact Or.inr trivial
  · exact Or.inl trivial
  · exact le_total _ _

instance : IsTrans (Option String) optLE := by
  constructor
  intro a b c hab hbc
  cases a <;> cases b <;> cases c <;>
    first
      | trivial
      | exact hab.elim
      | exact hbc.elim
      | exact le_trans hab hbc

/-- **C5 (amended).** For a nonempty state selection the district option
list is the sorted duplicate-free set of district values among the
features of the *full* dataset whose state equals the selection; for the
empty ("All States") selection `updateDistrictFilter` returns early and
the option list is empty — clearing the state filter does *not*
repopulate the district list with the dataset's districts. -/
theorem district_options_from_full_dataset (features : List Props) (st : String)
    (d : Option String) (hst : st ≠ "") :
    (d ∈ updateDistrictFilter features st ↔
      ∃ p, p ∈ features ∧ p.state = some st ∧ p.district = d) ∧
    (updateDistrictFilter features st).Nodup ∧
    List.Sorted optLE (updateDistrictFilter features st) ∧
    updateDistrictFilter features "" = [] := by
  have hne : updateDistrictFilter features st =
      setSort ((features.filter (fun p => p.state = some st)).map Props.district) := by
    simp [updateDistrictFilter, hst]
  refine ⟨?_, ?_, ?_, by simp [updateDistrictFilter]⟩
  · rw [hne]
    unfold setSort
    rw [(List.perm_insertionSort optLE _).mem_iff, List.mem_dedup, List.mem_map]
    constructor
    · rintro ⟨p, hp, hd⟩
      rw [List.mem_filter] at hp
      exact ⟨p, hp.1, by simpa using hp.2, hd⟩
    · rintro ⟨p, hp, hs, hd⟩
      exact ⟨p, List.mem_filter.mpr ⟨hp, by simpa using hs⟩, hd⟩
  · rw [hne]
    unfold setSort
    exact (List.perm_insertionSort optLE _).nodup_iff.mpr (List.nodup_dedup _)
  · rw [hne]
    unfold setSort
    exact List.sorted_insertionSort optLE _

/-- A feature located in Odisha, Mayurbhanj. -/
def odishaFeature : Props :=
  { emptyProps with
    state := some "Odisha"
    district := some "Mayurbhanj" }

/-- Witness for C5 at a concrete dataset and selection. -/
theorem district_options_from_full_dataset_witness :
    (some "Mayurbhanj" ∈ updateDistrictFilter [odishaFeature] "Odisha" ↔
      ∃ p, p ∈ [odishaFeature] ∧ p.state = some "Odisha" ∧
        p.district = some "Mayurbhanj") ∧
    (updateDistrictFilter [odishaFeature] "Odisha").Nodup ∧
    List.Sorted optLE (updateDistrictFilter [odishaFeature] "Odisha") ∧
    updateDistrictFilter [odishaFeature] "" = [] :=
  district_options_from_full_dataset [odishaFeature] "Odisha"
    (some "Mayurbhanj") (by decide)

/-- **C5 counterexample.** On a dataset containing the district
Mayurbhanj, selecting Odisha lists it, but the empty ("All States")
selection yields an empty option list — not "all districts of the
dataset" as claimed, so clearing the state filter leaves the district
list empty. -/
theorem empty_state_empty_districts_counterexample :
    updateDistrictFilter [odishaFeature] "Odisha" = [some "Mayurbhanj"] ∧
    updateDistrictFilter [odishaFeature] "" = [] := by decide

/-! ### C7: single-highlight interaction controller -/

lemma colors_color_ne_highlight (k : String) (b : BaseStyle)
    (hb : colors k = some b) : b.color ≠ "#ffff00" := by
  unfold colors at hb
  split_ifs at hb <;> (try cases hb) <;> decide

/-- No normal (category/status-derived) style carries the highlight
stroke color. -/
lemma getFeatureStyle_not_highlight (p : Props) :
    (getFeatureStyle p).color ≠ "#ffff00" := by
  have hcol : (getFeatureStyle p).color =
      (((styleKeyOf p).bind colors).getD neutralBase).color := rfl
  rw [hcol]
  cases hk : (styleKeyOf p).bind colors with
  | none => decide
  | some b =>
    simp only [Option.getD_some]
    obtain ⟨a, _, hc2⟩ := Option.bind_eq_some.mp hk
    exact colors_color_ne_highlight a b hc2

/-- **C7.** From any state satisfying the single-highlight invariant,
`highlightFeature(a)` preserves it: the previously highlighted layer `b`
is restored to its normal category/status-derived style, `a` becomes the
current feature and carries the highlight style, and no two layers are
ever highlighted at once; the highlight-clearing part of `resetView`
returns to the idle state with no highlighted layer. -/
theorem highlight_controller_single (v : Viewer) (a : Nat)
    (hInv : HighlightInv v) :
    HighlightInv (highlightFeature v a) ∧
    (highlightFeature v a).currentFeature = some a ∧
    Highlighted (highlightFeature v a) a ∧
    (∀ b, v.currentFeature = some b → b ≠ a →
      (highlightFeature v a).styleOf b = getFeatureStyle (v.featureProps b)) ∧
    (∀ i j, Highlighted (highlightFeature v a) i →
      Highlighted (highlightFeature v a) j → i = j) ∧
    HighlightInv (resetView v) ∧
    (resetView v).currentFeature = none ∧
    (∀ i, ¬ Highlighted (resetView v) i) := by
  have hInvH : HighlightInv (highlightFeature v a) := by
    intro i
    unfold Highlighted highlightFeature
    cases hc : v.currentFeature with
    | none =>
      by_cases hia : i = a
      · subst hia; simp [applyHighlight]
      · simp only [hia, if_false]
        have h2 := hInv i
        unfold Highlighted at h2
        rw [hc] at h2
        rw [h2]
        constructor
        · intro hfalse; exact absurd hfalse (by simp)
        · intro heq; exact absurd (Option.some.inj heq) (fun hx => hia hx.symm)
    | some prev =>
      by_cases hia : i = a
      · subst hia; simp [applyHighlight]
      · simp only [hia, if_false]
        by_cases hip : i = prev
        · subst hip
          simp only [if_pos rfl]
          constructor
          · intro hy; exact absurd hy (getFeatureStyle_not_highlight _)
          · intro heq; exact absurd (Option.some.inj heq) (fun hx => hia hx.symm)
        · simp only [hip, if_false]
          have h2 := hInv i
          unfold Highlighted at h2
          rw [hc] at h2
          rw [h2]
          constructor
          · intro heq; exact absurd (Option.some.inj heq) (fun hx => hip hx.symm)
          · intro heq; exact absurd (Option.some.inj heq) (fun hx => hia hx.symm)
  have hCur : (highlightFeature v a).currentFeature = some a := by
    unfold highlightFeature
    cases v.currentFeature <;> rfl
  have hInvR : HighlightInv (resetView v) := by
    intro i
    unfold Highlighted resetView
    cases hc : v.currentFeature with
    | none => exact hInv i
    | some prev =>
      by_cases hip : i = prev
      · subst hip
        simp only [if_pos rfl]
        constructor
        · intro hy; exact absurd hy (getFeatureStyle_not_highlight _)
        · intro hfalse; exact absurd hfalse (by simp)
      · simp only [hip, if_false]
        have h2 := hInv i
        unfold Highlighted at h2
        rw [hc] at h2
        rw [h2]
        constructor
        · intro heq; exact absurd (Option.some.inj heq) (fun hx => hip hx.symm)
        · intro hfalse; exact absurd hfalse (by simp)
  have hRCur : (resetView v).currentFeature = none := by
    unfold resetView
    cases hc : v.currentFeature with
    | none => exact hc
    | some prev => rfl
  refine ⟨hInvH, hCur, (hInvH a).mpr hCur, ?_, ?_, hInvR, hRCur, ?_⟩
  · intro b hb hba
    unfold highlightFeature
    rw [hb]
    simp [hba]
  · intro i j hi hj
    have h1 := (hInvH i).mp hi
    have h2 := (hInvH j).mp hj
    rw [hCur] at h1 h2
    exact (Option.some.inj h1).symm.trans (Option.some.inj h2)
  · intro i hy
    have h1 := (hInvR i).mp hy
    rw [hRCur] at h1
    exact absurd h1 (by simp)

/-- A viewer in which layer 1 is currently highlighted and every other
layer carries its normal style. -/
def highlightedViewer : Viewer :=
  { featureProps := fun _ => legacyCFRFeature
    currentFeature := some 1
    styleOf := fun i =>
      if i = 1 then applyHighlight (getFeatureStyle legacyCFRFeature)
      else getFeatureStyle legacyCFRFeature }

/-- Witness for C7: selecting layer 0 while layer 1 is highlighted. -/
theorem highlight_controller_single_witness :
    HighlightInv (highlightFeature highlightedViewer 0) ∧
    (highlightFeature highlightedViewer 0).currentFeature = some 0 ∧
    Highlighted (highlightFeature highlightedViewer 0) 0 ∧
    (∀ b, highlightedViewer.currentFeature = some b → b ≠ 0 →
      (highlightFeature highlightedViewer 0).styleOf b =
        getFeatureStyle (highlightedViewer.featureProps b)) ∧
    (∀ i j, Highlighted (highlightFeature highlightedViewer 0) i →
      Highlighted (highlightFeature highlightedViewer 0) j → i = j) ∧
    HighlightInv (resetView highlightedViewer) ∧
    (resetView highlightedViewer).currentFeature = none ∧
    (∀ i, ¬ Highlighted (resetView highlightedViewer) i) :=
  highlight_controller_single highlightedViewer 0 (by
    intro i
    by_cases h1 : i = 1
    · subst h1
      constructor
      · intro hy; rfl
      · intro heq; simp [highlightedViewer, Highlighted, applyHighlight]
    · constructor
      · intro hy
        have hsty : highlightedViewer.styleOf i =
            getFeatureStyle legacyCFRFeature := by
          simp [highlightedViewer, h1]
        unfold Highlighted at hy
        rw [hsty] at hy
        exact absurd hy (getFeatureStyle_not_highlight _)
      · intro heq
        have h2 : (1 : Nat) = i := Option.some.inj heq
        exact absurd h2 (fun hx => h1 hx.symm))

end Vanachitra
